import Mathlib

/-!
Shallow embedding of the `pytest_condition_coverage` analyzer and plugin
(`analyzer.py`, `plugin.py`): the Python AST fragment the visitor inspects,
the `ConditionVisitor` traversal, `ConditionCoverageAnalyzer`
(`find_conditions`, `analyze_file`, `get_class_coverage`) and the plugin's
per-file loop (`_calculate_condition_coverage`) and report aggregation
(`_generate_report`).  Python dicts are insertion-ordered association lists,
Python sets of line numbers are `Finset Nat`, and floating-point percentages
are modelled in `ℚ` (the arithmetic involved is exact division and
multiplication by 100, and the claims concern equalities with 100/0 and
order, which are preserved).
-/

namespace CondCov

/-- The fragment of the Python AST relevant to `ConditionVisitor`: the node
kinds with dedicated `visit_*` methods (`ClassDef`, `FunctionDef`, `Compare`,
`BoolOp`, `UnaryOp`), `AsyncFunctionDef` (which has no dedicated visitor),
and `other` standing for every remaining node kind, which `ast.NodeVisitor`
handles by `generic_visit`, i.e. by visiting the children.  `lineno` and
`endLineno` carry the `lineno`/`end_lineno` attributes the source reads. -/
inductive Node : Type where
  | classDef (name : String) (lineno endLineno : Nat) (body : List Node)
  | functionDef (name : String) (lineno endLineno : Nat) (body : List Node)
  | asyncFunctionDef (name : String) (lineno endLineno : Nat) (body : List Node)
  | compare (lineno : Nat) (children : List Node)
  | boolOp (lineno : Nat) (children : List Node)
  | unaryOp (opIsNot : Bool) (lineno : Nat) (children : List Node)
  | other (children : List Node)

/-- `ClassInfo` from `analyzer.py` lines 7-17: name, line span, the
`methods` dict (`method_name -> (start_line, end_line)`), and the two
counters. -/
structure ClassInfo where
  name : String
  start_line : Nat
  end_line : Nat
  methods : List (String × Nat × Nat)
  conditions : Nat
  covered_conditions : Nat
deriving DecidableEq

/-- Python dict assignment `d[k] = v` on an insertion-ordered association
list: overwrite in place when the key is present, append otherwise. -/
def assocSet {α β : Type} [DecidableEq α] (d : List (α × β)) (k : α) (v : β) :
    List (α × β) :=
  if d.any (fun p => decide (p.1 = k)) then
    d.map (fun p => if p.1 = k then (k, v) else p)
  else
    d ++ [(k, v)]

/-- The mutable state of `ConditionVisitor` (`analyzer.py` lines 36-39):
`conditions` (dict `line_no -> condition_node`), `current_class` (here the
key of the current class in `classes`; whenever `current_class` is set the
object it references is the one stored under its name, so keying by name is
faithful), and `classes` (dict `class_name -> ClassInfo`). -/
structure VState where
  conditions : List (Nat × Node)
  current_class : Option String
  classes : List (String × ClassInfo)

/-- The shared body of `visit_Compare` / `visit_BoolOp` / the `Not` branch of
`visit_UnaryOp`: `self.conditions[node.lineno] = node`, and if a current
class is set, `self.current_class.conditions += 1`. -/
def addCondition (st : VState) (line : Nat) (nd : Node) : VState :=
  { st with
    conditions := assocSet st.conditions line nd
    classes :=
      match st.current_class with
      | none => st.classes
      | some k =>
          st.classes.map (fun p =>
            if p.1 = k then (p.1, { p.2 with conditions := p.2.conditions + 1 })
            else p) }

/-- Recording a method in the current class, the `visit_FunctionDef` body
when `self.current_class` is set: `self.current_class.add_method(...)`. -/
def addMethod (st : VState) (nm : String) (s e : Nat) : VState :=
  match st.current_class with
  | none => st
  | some k =>
      { st with
        classes := st.classes.map (fun p =>
          if p.1 = k then (p.1, { p.2 with methods := assocSet p.2.methods nm (s, e) })
          else p) }

mutual

/-- `ConditionVisitor.visit` dispatch (`analyzer.py` lines 41-77):
`visit_ClassDef` stores a fresh `ClassInfo`, makes it current, recurses, then
sets `current_class = None`; `visit_FunctionDef` records the method when a
class is current and recurses; `AsyncFunctionDef` has no visitor so only its
children are visited; `visit_Compare`/`visit_BoolOp` record the node and
bump the current class's counter; `visit_UnaryOp` does so only for `Not`;
every other node is `generic_visit`ed. -/
def visitNode (st : VState) : Node → VState
  | .classDef nm s e body =>
      let info : ClassInfo := ⟨nm, s, e, [], 0, 0⟩
      let st1 := { st with classes := assocSet st.classes nm info,
                           current_class := some nm }
      let st2 := visitList st1 body
      { st2 with current_class := none }
  | .functionDef nm s e body =>
      visitList (addMethod st nm s e) body
  | .asyncFunctionDef _ _ _ body =>
      visitList st body
  | .compare ln ch =>
      visitList (addCondition st ln (.compare ln ch)) ch
  | .boolOp ln ch =>
      visitList (addCondition st ln (.boolOp ln ch)) ch
  | .unaryOp opIsNot ln ch =>
      let st1 := if opIsNot then addCondition st ln (.unaryOp opIsNot ln ch) else st
      visitList st1 ch
  | .other ch =>
      visitList st ch

/-- `generic_visit`: visit the children in order, threading the state. -/
def visitList (st : VState) : List Node → VState
  | [] => st
  | n :: ns => visitList (visitNode st n) ns

end

/-- The fields of `ConditionCoverageAnalyzer` (`analyzer.py` lines 20-25):
the parsed `tree`, the `conditions` dict, the `covered_conditions` set of
line numbers, and the `classes` dict. -/
structure AnalyzerState where
  tree : Node
  conditions : List (Nat × Node)
  covered_conditions : Finset Nat
  classes : List (String × ClassInfo)

/-- `ConditionCoverageAnalyzer.__init__` given an already-parsed tree: all
containers start empty. -/
def mkAnalyzerState (tree : Node) : AnalyzerState := ⟨tree, [], ∅, []⟩

/-- Errors raised by `ast.parse` on syntactically invalid source. -/
inductive ParseError : Type where
  | syntaxError (msg : String)

/-- `ConditionCoverageAnalyzer.__init__` (`analyzer.py` lines 20-25) around
the external `ast.parse(source_code)` call, modelled by its outcome: the
constructor has no `try`/`except`, so a parse failure propagates unchanged
and no analyzer state is built. -/
def analyzerInit (parsed : Except ParseError Node) :
    Except ParseError AnalyzerState :=
  match parsed with
  | .error e => .error e
  | .ok tree => .ok (mkAnalyzerState tree)

/-- `ConditionCoverageAnalyzer.find_conditions` (`analyzer.py` lines 33-83):
run a fresh `ConditionVisitor` over the tree, overwrite `self.conditions`
and `self.classes` with the visitor's, and return `len(self.conditions)`. -/
def find_conditions (st : AnalyzerState) : AnalyzerState × Nat :=
  let v := visitNode ⟨[], none, []⟩ st.tree
  let st1 := { st with conditions := v.conditions, classes := v.classes }
  (st1, st1.conditions.length)

/-- `ConditionCoverageAnalyzer.analyze_file` (`analyzer.py` lines 85-106):
re-run `find_conditions`, count the condition lines present in
`executed_lines` (adding each to `self.covered_conditions`), then set each
class's `covered_conditions` to the count of condition lines that are both
executed and inside the class's line span.  Returns
`(total_conditions, covered_conditions)`. -/
def analyze_file (st : AnalyzerState) (executed : Finset Nat) :
    AnalyzerState × Nat × Nat :=
  let r := find_conditions st
  let st1 := r.1
  let total := r.2
  let covered := st1.conditions.countP (fun p => decide (p.1 ∈ executed))
  let st2 := { st1 with
    covered_conditions := st1.covered_conditions ∪
      ((st1.conditions.map Prod.fst).filter (fun k => decide (k ∈ executed))).toFinset }
  let st3 := { st2 with
    classes := st2.classes.map (fun p =>
      (p.1, { p.2 with covered_conditions :=
        st1.conditions.countP (fun q =>
          decide (q.1 ∈ executed) && decide (p.2.start_line ≤ q.1) &&
          decide (q.1 ≤ p.2.end_line)) })) }
  (st3, total, covered)

/-- The percentage formula used at every scope:
`100.0` when the total is zero, else `covered / total * 100`
(`analyzer.py` lines 112-115 and 134-137, `plugin.py` line 90). -/
def coveragePct (covered total : Nat) : ℚ :=
  if total = 0 then 100 else ((covered : ℚ) / (total : ℚ)) * 100

/-- One entry of the per-method dict built by `get_class_coverage`. -/
structure MethodCoverage where
  total_conditions : Nat
  covered_conditions : Nat
  coverage_percentage : ℚ
deriving DecidableEq

/-- One entry of the per-class dict built by `get_class_coverage`. -/
structure ClassCoverage where
  total_conditions : Nat
  covered_conditions : Nat
  coverage_percentage : ℚ
  methods : List (String × MethodCoverage)
deriving DecidableEq

/-- `ConditionCoverageAnalyzer.get_class_coverage` (`analyzer.py` lines
108-145): per class, report the node-count `conditions` and the stored
`covered_conditions` with their percentage; per method, count the condition
lines inside the method's span (`method_conditions`) and among them those in
`self.covered_conditions` (`method_covered`). -/
def get_class_coverage (st : AnalyzerState) : List (String × ClassCoverage) :=
  st.classes.map (fun p =>
    let info := p.2
    let methods := info.methods.map (fun m =>
      let s := m.2.1
      let e := m.2.2
      let mTotal := st.conditions.countP (fun q =>
        decide (s ≤ q.1) && decide (q.1 ≤ e))
      let mCovered := st.conditions.countP (fun q =>
        (decide (s ≤ q.1) && decide (q.1 ≤ e)) &&
        decide (q.1 ∈ st.covered_conditions))
      (m.1, MethodCoverage.mk mTotal mCovered (coveragePct mCovered mTotal)))
    (p.1, ClassCoverage.mk info.conditions info.covered_conditions
      (coveragePct info.covered_conditions info.conditions) methods))

/-- One file's entry in `self.condition_coverage_results`
(`plugin.py` lines 100-105). -/
structure FileResult where
  condition_coverage : ℚ
  total_conditions : Nat
  covered_conditions : Nat
  classes : List (String × ClassCoverage)
deriving DecidableEq

/-- The per-file body of `_calculate_condition_coverage`
(`plugin.py` lines 83-105): build the analyzer, run `analyze_file` with the
executed-line set, compute the file percentage (`100.0` on a zero total),
and attach `get_class_coverage`. -/
def analyzeSource (tree : Node) (executed : Finset Nat) : FileResult :=
  let r := analyze_file (mkAnalyzerState tree) executed
  let total := r.2.1
  let covered := r.2.2
  ⟨coveragePct covered total, total, covered, get_class_coverage r.1⟩

/-- `ConditionCoveragePlugin._calculate_condition_coverage`
(`plugin.py` lines 65-107): loop over the files (each given with the outcome
of parsing it and its executed-line set); the body is wrapped in
`try`/`except Exception`, so a file whose parse raises is logged and
skipped, and the loop continues with the remaining files. -/
def calculateConditionCoverage :
    List (String × Except ParseError Node × Finset Nat) →
    List (String × FileResult)
  | [] => []
  | (path, parsed, lines) :: rest =>
      match parsed with
      | .error _ => calculateConditionCoverage rest
      | .ok tree => (path, analyzeSource tree lines) :: calculateConditionCoverage rest

/-- The report of `_generate_report` (`plugin.py` lines 110-137): the files
dict and `total_condition_coverage`. -/
structure Report where
  files : List (String × FileResult)
  total_condition_coverage : ℚ

/-- `ConditionCoveragePlugin._generate_report` (`plugin.py` lines 110-137):
sum `total_conditions` and `covered_conditions` over all files;
`total_condition_coverage` starts at `0.0` and is set to
`covered / total * 100` only when the summed total is positive. -/
def generateReport (results : List (String × FileResult)) : Report :=
  let total : Nat := (results.map (fun p => p.2.total_conditions)).sum
  let covered : Nat := (results.map (fun p => p.2.covered_conditions)).sum
  ⟨results, if 0 < total then ((covered : ℚ) / (total : ℚ)) * 100 else 0⟩

/-! Helper lemmas about the percentage formula and list combinators. -/

theorem coveragePct_zero_total (c : Nat) : coveragePct c 0 = 100 := by
  simp [coveragePct]

theorem coveragePct_mono {c1 c2 : Nat} (t : Nat) (h : c1 ≤ c2) :
    coveragePct c1 t ≤ coveragePct c2 t := by
  unfold coveragePct
  split
  · exact le_refl _
  · next ht =>
    have ht' : (0 : ℚ) < (t : ℚ) := by exact_mod_cast Nat.pos_of_ne_zero ht
    have hdiv : ((c1 : ℚ) / (t : ℚ)) ≤ ((c2 : ℚ) / (t : ℚ)) :=
      (div_le_div_iff_of_pos_right ht').mpr (by exact_mod_cast h)
    exact mul_le_mul_of_nonneg_right hdiv (by norm_num)

theorem coveragePct_nonneg (c t : Nat) : 0 ≤ coveragePct c t := by
  unfold coveragePct
  split
  · norm_num
  · positivity

theorem coveragePct_le_100 {c t : Nat} (h : c ≤ t) : coveragePct c t ≤ 100 := by
  unfold coveragePct
  split
  · exact le_refl _
  · next ht =>
    have ht' : (0 : ℚ) < (t : ℚ) := by exact_mod_cast Nat.pos_of_ne_zero ht
    have h1 : ((c : ℚ) / (t : ℚ)) ≤ 1 := by
      rw [div_le_one ht']
      exact_mod_cast h
    calc ((c : ℚ) / (t : ℚ)) * 100 ≤ 1 * 100 :=
          mul_le_mul_of_nonneg_right h1 (by norm_num)
      _ = 100 := by norm_num

theorem forall2_map_map {α β γ : Type} {R : β → γ → Prop} {f : α → β} {g : α → γ} :
    ∀ l : List α, (∀ x ∈ l, R (f x) (g x)) → List.Forall₂ R (l.map f) (l.map g)
  | [], _ => List.Forall₂.nil
  | x :: xs, h =>
      List.Forall₂.cons (h x (List.mem_cons_self x xs))
        (forall2_map_map xs (fun y hy => h y (List.mem_cons_of_mem x hy)))

/-- Shape of the entries produced by `get_class_coverage`: every reported
percentage is `coveragePct` of the reported covered/total pair, and each
method's covered count never exceeds its total (the covered counter only
increments on lines already counted in the total). -/
theorem mem_get_class_coverage {st : AnalyzerState} {p : String × ClassCoverage}
    (hp : p ∈ get_class_coverage st) :
    p.2.coverage_percentage = coveragePct p.2.covered_conditions p.2.total_conditions ∧
    ∀ m ∈ p.2.methods,
      m.2.coverage_percentage = coveragePct m.2.covered_conditions m.2.total_conditions ∧
      m.2.covered_conditions ≤ m.2.total_conditions := by
  unfold get_class_coverage at hp
  rcases List.mem_map.1 hp with ⟨q, _, rfl⟩
  refine ⟨rfl, ?_⟩
  intro m hm
  rcases List.mem_map.1 hm with ⟨mm, _, rfl⟩
  refine ⟨rfl, ?_⟩
  refine List.countP_mono_left (fun a _ ha => ?_)
  simp only [Bool.and_eq_true] at ha ⊢
  exact ha.1

/-! Concrete source trees used as inputs to the claims. -/

/-- `if a == b and c:` on line 1 at module level: a `BoolOp` containing a
`Compare`, both with `lineno = 1`, inside an `If` node (`other`). -/
def exBoolCmpLine : Node :=
  .other [.other [.boolOp 1 [.compare 1 [], .other []], .other []]]

/-- `class C:` (lines 1-2) whose body is `if a == b and c:` on line 2. -/
def exClsBoolCmp : Node :=
  .classDef "C" 1 2 [.other [.boolOp 2 [.compare 2 [], .other []]]]

/-- `class A:` (lines 1-10) with a method `m` (lines 2-7) holding nested
functions `g`, `h`, `k`, a single comparison `if x > 0:` on line 6 inside
`k`, and a class-body line 9 holding both a `BoolOp` and a `Compare`. -/
def exOverlap : Node :=
  .classDef "A" 1 10 [
    .functionDef "m" 2 7 [.functionDef "g" 3 7 [.functionDef "h" 4 7 [
      .functionDef "k" 5 7 [.other [.compare 6 []]]]]],
    .other [.boolOp 9 [.compare 9 [], .other []]]]

/-- `class C:` (lines 1-4) with one method `m` (lines 2-4) holding one
comparison on line 3; no nesting, one condition node per line. -/
def exFlat : Node :=
  .classDef "C" 1 4 [.functionDef "m" 2 4 [.other [.compare 3 []]]]

/-- `class A:` (lines 1-7) containing a nested `class B:` (lines 2-3),
then a comparison on line 5 and a `def f` on lines 6-7, both in `A`'s body
after `B` ends. -/
def exNested : Node :=
  .classDef "A" 1 7 [.classDef "B" 2 3 [], .other [.compare 5 []],
    .functionDef "f" 6 7 []]

/-- `class C:` (lines 1-3) with `async def am` (lines 2-3) holding one
comparison on line 3. -/
def exAsync : Node :=
  .classDef "C" 1 3 [.asyncFunctionDef "am" 2 3 [.other [.compare 3 []]]]

/-- `class C:` (lines 1-3) with method `m` (lines 2-3) and no conditions. -/
def exZero : Node := .classDef "C" 1 3 [.functionDef "m" 2 3 [.other []]]

/-- The class entry `analyzeSource exZero ∅` produces for `C`. -/
def exZeroMth : MethodCoverage := ⟨0, 0, 100⟩

/-- The method entry `analyzeSource exZero ∅` produces for `C.m`. -/
def exZeroCls : ClassCoverage := ⟨0, 0, 100, [("m", exZeroMth)]⟩

/-- A one-file results table: 2 conditions, 1 covered. -/
def exResults : List (String × FileResult) := [("a.py", ⟨50, 2, 1, []⟩)]

/-! Claim theorems. -/

/-- Claim C1, counterexample: on the source `if a == b and c:` (one line
holding a `Compare` and a `BoolOp`), the file-level total returned by
`find_conditions` is 1, not the claimed 2 — `self.conditions` is a dict
keyed by line number, so the second node on the line overwrites the first
and `len(self.conditions)` counts distinct lines. -/
theorem claim1_counterexample :
    (find_conditions (mkAnalyzerState exBoolCmpLine)).2 = 1 ∧
    (find_conditions (mkAnalyzerState exBoolCmpLine)).2 ≠ 2 := by
  decide

/-- Claim C1, amended: a line holding both a comparison and a boolean
combination contributes exactly 1 condition to the file-level total (the
condition dict is keyed by line, deduplicating across kinds on the same
line); the per-node count with no deduplication is what the enclosing
class's total records: on `class C:` with body `if a == b and c:`, the
file-level total is 1 while class `C`'s counter is 2. -/
theorem claim1_amended :
    (find_conditions (mkAnalyzerState exClsBoolCmp)).2 = 1 ∧
    ((find_conditions (mkAnalyzerState exClsBoolCmp)).1.classes.map
      (fun p => (p.1, p.2.conditions))) = [("C", 2)] := by
  decide

/-- Claim C2, counterexample: on `exOverlap`, class `A` reports
`total_conditions = 3` (three condition nodes: one comparison on line 6,
and a boolean combination plus a comparison sharing line 9), while only 2
file-level conditions (distinct lines 6 and 9) lie in `A`'s range `[1,10]`,
and `A`'s method-level totals sum to 4 (the nested functions `m`, `g`, `h`,
`k` are all recorded as methods with overlapping ranges, each counting
line 6) — so both the claimed equality (3 = 2) and the claimed bound
(4 ≤ 3) fail at this input. -/
theorem claim2_counterexample :
    ((analyzeSource exOverlap ∅).classes.map (fun p =>
      (p.1, p.2.total_conditions,
        (p.2.methods.map (fun m => m.2.total_conditions)).sum))) = [("A", 3, 4)] ∧
    ((analyze_file (mkAnalyzerState exOverlap) ∅).1.classes.map (fun p =>
      (analyze_file (mkAnalyzerState exOverlap) ∅).1.conditions.countP (fun q =>
        decide (p.2.start_line ≤ q.1) && decide (q.1 ≤ p.2.end_line)))) = [2] ∧
    ¬ ((3 : Nat) = 2 ∧ (4 : Nat) ≤ 3) := by
  decide

/-- Claim C2, amended: the class-level `total_conditions` counts condition
nodes attributed while the class is current rather than re-filtering the
file-level (per-line) condition set, so it can differ from the count of
file-level conditions in the class's range when a line holds several nodes,
and the sum of method-level totals can exceed the class total when nested
function definitions produce overlapping method ranges; for a class whose
condition lines each hold a single node and whose body nests no classes or
functions (here `exFlat`: one method, one comparison) the claimed equality
and bound do hold. -/
theorem claim2_amended :
    ((analyzeSource exFlat ∅).classes.map (fun p =>
      (p.1, p.2.total_conditions,
        (p.2.methods.map (fun m => m.2.total_conditions)).sum))) = [("C", 1, 1)] ∧
    ((analyze_file (mkAnalyzerState exFlat) ∅).1.classes.map (fun p =>
      (analyze_file (mkAnalyzerState exFlat) ∅).1.conditions.countP (fun q =>
        decide (p.2.start_line ≤ q.1) && decide (q.1 ≤ p.2.end_line)))) = [1] := by
  decide

/-- Claim C4, counterexample: with no analyzed files (grand total of
conditions 0), `_generate_report` leaves `total_condition_coverage` at its
initialized `0.0`; it is not `100.0` as the claim states. -/
theorem claim4_counterexample :
    (generateReport []).total_condition_coverage = 0 ∧
    (generateReport []).total_condition_coverage ≠ 100 := by
  decide

/-- Claim C4, amended: the report's `total_condition_coverage` equals
`sum(covered_conditions) / sum(total_conditions) * 100` taken across all
files (not an average of per-file percentages) whenever the grand total of
conditions is positive; when the grand total is zero it remains at the
initialized value `0.0`, not `100.0`. -/
theorem claim4_amended (results : List (String × FileResult)) :
    (0 < (results.map (fun p => p.2.total_conditions)).sum →
      (generateReport results).total_condition_coverage =
        ((((results.map (fun p => p.2.covered_conditions)).sum : Nat) : ℚ) /
          (((results.map (fun p => p.2.total_conditions)).sum : Nat) : ℚ)) * 100) ∧
    ((results.map (fun p => p.2.total_conditions)).sum = 0 →
      (generateReport results).total_condition_coverage = 0) := by
  constructor
  · intro h
    simp only [generateReport]
    rw [if_pos h]
  · intro h
    simp only [generateReport]
    rw [if_neg (by omega)]

/-- Claim C4, witness: on a one-file table with 2 conditions of which 1 is
covered, the aggregate is `1/2*100`; on the empty table it is `0`. -/
theorem claim4_witness :
    (generateReport exResults).total_condition_coverage =
      ((((exResults.map (fun p => p.2.covered_conditions)).sum : Nat) : ℚ) /
        (((exResults.map (fun p => p.2.total_conditions)).sum : Nat) : ℚ)) * 100 ∧
    (generateReport []).total_condition_coverage = 0 :=
  ⟨(claim4_amended exResults).1 (by decide), (claim4_amended []).2 (by decide)⟩

/-- Claim C5, counterexample: `visit_ClassDef` ends with
`self.current_class = None`, not a restoration of the previous class, so on
`exNested` (outer class `A` containing nested class `B`, followed in `A`'s
body by a comparison on line 5 and `def f`) the condition and the function
definition after `B` are attributed to no class: `A.conditions = 0` and
`A.methods = {}` even though line 5 carries a condition inside `A`'s range
and `f` is defined inside `A`. -/
theorem claim5_counterexample :
    ((visitNode ⟨[], none, []⟩ exNested).classes.map
      (fun p => (p.1, p.2.conditions, p.2.methods))) =
      [("A", 0, []), ("B", 0, [])] ∧
    ((visitNode ⟨[], none, []⟩ exNested).conditions.map Prod.fst) = [5] := by
  decide

/-- Claim C5, amended: on exiting a class definition the visitor sets the
current enclosing class to `None` unconditionally (the previously current
class is not restored), so after a nested or preceding class definition
ends, conditions and function definitions encountered afterwards inside an
outer class are attributed to no class: for every visitor state and every
class node, the state after visiting the class has `current_class = none`,
and on `exNested` the outer class `A` ends with zero attributed conditions
and an empty method table. -/
theorem claim5_amended :
    (∀ (st : VState) (nm : String) (s e : Nat) (body : List Node),
      (visitNode st (.classDef nm s e body)).current_class = none) ∧
    ((visitNode ⟨[], none, []⟩ exNested).classes.map
      (fun p => (p.1, p.2.conditions, p.2.methods.map Prod.fst))) =
      [("A", 0, []), ("B", 0, [])] := by
  constructor
  · intro st nm s e body
    simp [visitNode]
  · decide

/-- Claim C7: a parse failure propagates out of the analyzer constructor
unchanged (no recovery inside the extractor), and in the plugin's per-file
loop a file whose parse raises is excluded from the results while every
other file is processed exactly as if the failing file were absent — the
failure never aborts the batch. -/
theorem claim7 :
    (∀ e : ParseError, analyzerInit (.error e) = .error e) ∧
    (∀ (pre post : List (String × Except ParseError Node × Finset Nat))
       (path : String) (e : ParseError) (lines : Finset Nat),
      calculateConditionCoverage (pre ++ (path, .error e, lines) :: post) =
        calculateConditionCoverage (pre ++ post)) := by
  constructor
  · intro e
    rfl
  · intro pre post path e lines
    induction pre with
    | nil => simp [calculateConditionCoverage]
    | cons q pre ih =>
        obtain ⟨qp, qr, ql⟩ := q
        cases qr with
        | error e2 => simpa [calculateConditionCoverage] using ih
        | ok tr => simpa [calculateConditionCoverage] using ih

/-- Claim C8: extraction is deterministic and self-contained — running
`find_conditions` a second time on the analyzer state produced by a first
run returns exactly the same state and count (the visitor is freshly
instantiated each call and the result depends only on the stored tree), so
two runs on identical source text yield identical condition maps and
identical class/method scope tables. -/
theorem claim8 (st : AnalyzerState) :
    find_conditions (find_conditions st).1 = find_conditions st := by
  rfl

/-- Claim C10: `async def` methods are invisible to the method table — the
visitor has no `visit_AsyncFunctionDef`, so visiting one is exactly
`generic_visit` of its body (no method registration), and on `exAsync`
(class `C` with `async def am` holding a comparison on line 3) the class
reports one condition and the file total is 1, while `C`'s method table is
empty. -/
theorem claim10 :
    (∀ (st : VState) (nm : String) (s e : Nat) (body : List Node),
      visitNode st (.asyncFunctionDef nm s e body) = visitList st body) ∧
    ((visitNode ⟨[], none, []⟩ exAsync).classes.map
      (fun p => (p.1, p.2.conditions, p.2.methods))) = [("C", 1, [])] ∧
    (find_conditions (mkAnalyzerState exAsync)).2 = 1 := by
  refine ⟨fun st nm s e body => ?_, by decide, by decide⟩
  simp [visitNode]

/-- Claim C3: at every scope level, a zero condition total yields a
coverage percentage of exactly `100.0` — the file-level percentage when
`total_conditions = 0`, every class entry with `total_conditions = 0`, and
every method entry with `total_conditions = 0`; the division is never
evaluated in that case (the formula branches on the total first). -/
theorem claim3 (t : Node) (S : Finset Nat) :
    ((analyzeSource t S).total_conditions = 0 →
      (analyzeSource t S).condition_coverage = 100) ∧
    (∀ p ∈ (analyzeSource t S).classes,
      p.2.total_conditions = 0 → p.2.coverage_percentage = 100) ∧
    (∀ p ∈ (analyzeSource t S).classes, ∀ m ∈ p.2.methods,
      m.2.total_conditions = 0 → m.2.coverage_percentage = 100) := by
  refine ⟨?_, ?_, ?_⟩
  · intro h
    have hc : (analyzeSource t S).condition_coverage =
        coveragePct (analyzeSource t S).covered_conditions
          (analyzeSource t S).total_conditions := rfl
    rw [hc, h, coveragePct_zero_total]
  · intro p hp h
    have hc := (mem_get_class_coverage hp).1
    rw [hc, h, coveragePct_zero_total]
  · intro p hp m hm h
    have hc := ((mem_get_class_coverage hp).2 m hm).1
    rw [hc, h, coveragePct_zero_total]

/-- Claim C3, witness: on `exZero` (a class with one method and no
conditions anywhere) with an empty executed set, the file, the class `C`
and the method `m` all report `100.0`. -/
theorem claim3_witness :
    (analyzeSource exZero ∅).condition_coverage = 100 ∧
    ("C", exZeroCls).2.coverage_percentage = 100 ∧
    ("m", exZeroMth).2.coverage_percentage = 100 :=
  ⟨(claim3 exZero ∅).1 (by decide),
   (claim3 exZero ∅).2.1 ("C", exZeroCls) (by decide) (by decide),
   (claim3 exZero ∅).2.2 ("C", exZeroCls) (by decide) ("m", exZeroMth)
     (by decide) (by decide)⟩

/-- Claim C9: for every source tree and executed-line set, the file-level
result has `covered_conditions ≤ total_conditions` and its percentage lies
in `[0, 100]`, and every method-level entry likewise has
`covered_conditions ≤ total_conditions` with its percentage in `[0, 100]`. -/
theorem claim9 (t : Node) (S : Finset Nat) :
    (analyzeSource t S).covered_conditions ≤ (analyzeSource t S).total_conditions ∧
    (0 ≤ (analyzeSource t S).condition_coverage ∧
      (analyzeSource t S).condition_coverage ≤ 100) ∧
    ∀ p ∈ (analyzeSource t S).classes, ∀ m ∈ p.2.methods,
      m.2.covered_conditions ≤ m.2.total_conditions ∧
      0 ≤ m.2.coverage_percentage ∧ m.2.coverage_percentage ≤ 100 := by
  have hct : (analyzeSource t S).covered_conditions ≤
      (analyzeSource t S).total_conditions := by
    show List.countP _ (visitNode ⟨[], none, []⟩ t).conditions ≤
      (visitNode ⟨[], none, []⟩ t).conditions.length
    exact List.countP_le_length _
  refine ⟨hct, ?_, ?_⟩
  · have hc : (analyzeSource t S).condition_coverage =
        coveragePct (analyzeSource t S).covered_conditions
          (analyzeSource t S).total_conditions := rfl
    rw [hc]
    exact ⟨coveragePct_nonneg _ _, coveragePct_le_100 hct⟩
  · intro p hp m hm
    obtain ⟨hpct, hle⟩ := (mem_get_class_coverage hp).2 m hm
    exact ⟨hle, by rw [hpct]; exact coveragePct_nonneg _ _,
      by rw [hpct]; exact coveragePct_le_100 hle⟩

/-- Claim C9, witness: on `exZero` (class `C` with method `m` and no
conditions) with an empty executed set, the file satisfies the bound and
the method entry for `m` satisfies its bounds. -/
theorem claim9_witness :
    (analyzeSource exZero ∅).covered_conditions ≤
      (analyzeSource exZero ∅).total_conditions ∧
    (("m", exZeroMth).2.covered_conditions ≤ ("m", exZeroMth).2.total_conditions ∧
      0 ≤ ("m", exZeroMth).2.coverage_percentage ∧
      ("m", exZeroMth).2.coverage_percentage ≤ 100) :=
  ⟨(claim9 exZero ∅).1,
   (claim9 exZero ∅).2.2 ("C", exZeroCls) (by decide) ("m", exZeroMth) (by decide)⟩

/-- Pointwise comparison of two method-coverage entries: same name, same
total, and covered count and percentage no smaller on the right. -/
def methodLE (a b : String × MethodCoverage) : Prop :=
  a.1 = b.1 ∧ a.2.total_conditions = b.2.total_conditions ∧
  a.2.covered_conditions ≤ b.2.covered_conditions ∧
  a.2.coverage_percentage ≤ b.2.coverage_percentage

/-- Pointwise comparison of two class-coverage entries: same name, same
total, covered count and percentage no smaller on the right, and methods
pointwise comparable. -/
def classLE (a b : String × ClassCoverage) : Prop :=
  a.1 = b.1 ∧ a.2.total_conditions = b.2.total_conditions ∧
  a.2.covered_conditions ≤ b.2.covered_conditions ∧
  a.2.coverage_percentage ≤ b.2.coverage_percentage ∧
  List.Forall₂ methodLE a.2.methods b.2.methods

theorem forall2_map_both {α β γ δ : Type} {R : α → β → Prop} {Q : γ → δ → Prop}
    {f : α → γ} {g : β → δ} (h : ∀ a b, R a b → Q (f a) (g b)) :
    ∀ {l1 : List α} {l2 : List β},
      List.Forall₂ R l1 l2 → List.Forall₂ Q (l1.map f) (l2.map g)
  | _, _, .nil => .nil
  | _, _, .cons hab hrest => .cons (h _ _ hab) (forall2_map_both h hrest)

/-- `get_class_coverage` is monotone in the stored covered-line set and the
per-class covered counters: with identical condition dict and structurally
identical class tables whose covered counters only grow, every reported
entry compares pointwise. -/
theorem get_class_coverage_mono (tr : Node) (conds : List (Nat × Node))
    (cov cov' : Finset Nat) (hcov : ∀ x : Nat, x ∈ cov → x ∈ cov')
    (K K' : List (String × ClassInfo))
    (hK : List.Forall₂ (fun a b : String × ClassInfo =>
        a.1 = b.1 ∧ a.2.conditions = b.2.conditions ∧
        a.2.methods = b.2.methods ∧
        a.2.covered_conditions ≤ b.2.covered_conditions) K K') :
    List.Forall₂ classLE
      (get_class_coverage ⟨tr, conds, cov, K⟩)
      (get_class_coverage ⟨tr, conds, cov', K'⟩) := by
  refine forall2_map_both (fun a b hab => ?_) hK
  obtain ⟨hn, hc, hm, hle⟩ := hab
  refine ⟨hn, hc, hle, ?_, ?_⟩
  · dsimp only
    rw [hc]
    exact coveragePct_mono _ hle
  · dsimp only
    rw [hm]
    refine forall2_map_map _ (fun m _ => ?_)
    have hcovered : conds.countP (fun q =>
        (decide (m.2.1 ≤ q.1) && decide (q.1 ≤ m.2.2)) && decide (q.1 ∈ cov)) ≤
        conds.countP (fun q =>
        (decide (m.2.1 ≤ q.1) && decide (q.1 ≤ m.2.2)) && decide (q.1 ∈ cov')) := by
      refine List.countP_mono_left (fun a _ ha => ?_)
      simp only [Bool.and_eq_true, decide_eq_true_eq] at ha ⊢
      exact ⟨ha.1, hcov _ ha.2⟩
    exact ⟨rfl, rfl, hcovered, coveragePct_mono _ hcovered⟩

/-- Claim C6: enlarging the executed-line set with one more line never
decreases any coverage figure — the file-level covered count and
percentage, and, pointwise per class and per method (with totals
unchanged), the covered counts and percentages all weakly increase when
`S` is replaced by `insert l S`. -/
theorem claim6 (t : Node) (S : Finset Nat) (l : Nat) :
    (analyzeSource t S).covered_conditions ≤
      (analyzeSource t (insert l S)).covered_conditions ∧
    (analyzeSource t S).condition_coverage ≤
      (analyzeSource t (insert l S)).condition_coverage ∧
    List.Forall₂ classLE (analyzeSource t S).classes
      (analyzeSource t (insert l S)).classes := by
  have hS : ∀ x : Nat, x ∈ S → x ∈ insert l S :=
    fun x hx => Finset.mem_insert_of_mem hx
  have hcovfile : (analyzeSource t S).covered_conditions ≤
      (analyzeSource t (insert l S)).covered_conditions := by
    show List.countP _ (visitNode ⟨[], none, []⟩ t).conditions ≤
      List.countP _ (visitNode ⟨[], none, []⟩ t).conditions
    refine List.countP_mono_left (fun a _ ha => ?_)
    simp only [decide_eq_true_eq] at ha ⊢
    exact hS _ ha
  refine ⟨hcovfile, ?_, ?_⟩
  · have h1 : (analyzeSource t S).condition_coverage =
        coveragePct (analyzeSource t S).covered_conditions
          (analyzeSource t S).total_conditions := rfl
    have h2 : (analyzeSource t (insert l S)).condition_coverage =
        coveragePct (analyzeSource t (insert l S)).covered_conditions
          (analyzeSource t (insert l S)).total_conditions := rfl
    have ht : (analyzeSource t (insert l S)).total_conditions =
        (analyzeSource t S).total_conditions := rfl
    rw [h1, h2, ht]
    exact coveragePct_mono _ hcovfile
  · refine get_class_coverage_mono t
      (visitNode ⟨[], none, []⟩ t).conditions _ _ ?_ _ _ ?_
    · intro x hx
      simp only [find_conditions, mkAnalyzerState, Finset.mem_union,
        Finset.not_mem_empty, false_or, List.mem_toFinset, List.mem_filter,
        decide_eq_true_eq] at hx ⊢
      exact ⟨hx.1, hS _ hx.2⟩
    · refine forall2_map_map _ (fun p _ => ?_)
      refine ⟨rfl, rfl, rfl, ?_⟩
      refine List.countP_mono_left (fun a _ ha => ?_)
      simp only [Bool.and_eq_true, decide_eq_true_eq] at ha ⊢
      exact ⟨⟨hS _ ha.1.1, ha.1.2⟩, ha.2⟩

end CondCov
